import Mathlib

/-!
Shallow embedding of the brat standoff-annotation model of `annotations.py`
and of the per-file ingestion loop of `data_loader.py`, with proofs checking
the specification's claims about parsing, linking, filtering and export.

Strings are embedded as lists of characters (`Str`).  The Python string
operations used by the source (`split` with a one-character separator,
`split()` on whitespace, `split` with maxsplit 1, `strip`, `re.sub` on tab
runs, `replace`, f-string formatting of a numeric index, `int(...)`) are
embedded as executable functions on `Str` with Python's semantics.
Python dictionaries (which preserve insertion order) are embedded as
insertion-ordered association lists, and `defaultdict(list)` as an
association list in which a failed lookup appends an empty entry.
Exceptions are embedded with `Except`: every `ValueError` the source can
raise (failed tuple unpacking, `int` on a non-numeric string, an explicit
`raise ValueError`) maps to `AnnError.valueError`, an out-of-range
subscript (`parts[1]` on a short list) to `AnnError.indexError`, and
attribute access on `None` (`ann.norm.norm` with `norm` unset) to
`AnnError.attributeError`.
-/

abbrev Str := List Char

/-- Python `s.strip()` with no argument: remove leading and trailing whitespace. -/
def pyStrip (s : Str) : Str :=
  ((s.dropWhile Char.isWhitespace).reverse.dropWhile Char.isWhitespace).reverse

/-- Python `row.strip(chr(10))` as applied by the loader to each raw line:
remove leading and trailing newline characters. -/
def stripNl (s : Str) : Str :=
  ((s.dropWhile (fun c => c = '\n')).reverse.dropWhile (fun c => c = '\n')).reverse

/-- Python `s.split(sep)` for a one-character separator `c`: split at every
occurrence, keeping empty chunks; the result is never empty. -/
def splitOnChar (c : Char) : Str → List Str
  | [] => [[]]
  | x :: rest =>
    if x = c then [] :: splitOnChar c rest
    else
      match splitOnChar c rest with
      | [] => [[x]]
      | h :: t => (x :: h) :: t

/-- Auxiliary loop for `splitWs`, carrying the current token reversed. -/
def splitWsAux : Str → Str → List Str
  | [], acc => if acc = [] then [] else [acc.reverse]
  | c :: rest, acc =>
    if c.isWhitespace then
      if acc = [] then splitWsAux rest []
      else acc.reverse :: splitWsAux rest []
    else splitWsAux rest (c :: acc)

/-- Python `s.split()` with no argument: split on runs of whitespace,
producing no empty tokens. -/
def splitWs (s : Str) : List Str := splitWsAux s []

/-- Auxiliary loop for `splitSpaceOnce`. -/
def splitSpaceOnceAux : Str → Str → List Str
  | [], acc => [acc.reverse]
  | c :: rest, acc =>
    if c = ' ' then [acc.reverse, rest] else splitSpaceOnceAux rest (c :: acc)

/-- Python `s.split(chr(32), maxsplit 1)`: split at the first space only;
one element when no space occurs, two elements otherwise. -/
def splitSpaceOnce (s : Str) : List Str := splitSpaceOnceAux s []

/-- Decimal digits of a natural number, fuel-driven so that it computes by
kernel reduction; embeds the f-string rendering of the pair index. -/
def natToStrAux : Nat → Nat → Str
  | 0, _ => []
  | fuel + 1, n =>
    if n < 10 then [Char.ofNat (48 + n)]
    else natToStrAux fuel (n / 10) ++ [Char.ofNat (48 + n % 10)]

/-- Decimal rendering of a natural number. -/
def natToStr (n : Nat) : Str := natToStrAux (n + 1) n

/-- Value of a digit string, `none` on a non-digit character. -/
def digitsValAux : Str → Nat → Option Nat
  | [], acc => some acc
  | c :: rest, acc =>
    if c.isDigit then digitsValAux rest (acc * 10 + (c.toNat - 48)) else none

/-- Python `int(s)`: strip whitespace, allow one leading sign, then a
nonempty run of decimal digits; `none` models the `ValueError`. -/
def pyInt (s : Str) : Option Int :=
  match pyStrip s with
  | '-' :: rest => if rest = [] then none else (digitsValAux rest 0).map (fun n => -(n : Int))
  | '+' :: rest => if rest = [] then none else (digitsValAux rest 0).map (fun n => (n : Int))
  | t => if t = [] then none else (digitsValAux t 0).map (fun n => (n : Int))

/-- Auxiliary loop for `collapseTabs`; the flag records whether the previous
character was a tab. -/
def collapseTabsAux : Str → Bool → Str
  | [], _ => []
  | c :: rest, prevTab =>
    if c = '\t' then
      if prevTab then collapseTabsAux rest true
      else '\t' :: collapseTabsAux rest true
    else c :: collapseTabsAux rest false

/-- Python `re.sub` collapsing every run of consecutive tabs to one tab. -/
def collapseTabs (s : Str) : Str := collapseTabsAux s false

/-- Fuel-driven loop for `stripEmmet`; one unit of fuel per step suffices
because every step consumes at least one character. -/
def stripEmmetAux : Nat → Str → Str
  | 0, s => s
  | _ + 1, [] => []
  | fuel + 1, c :: rest =>
    if List.isPrefixOf ("emmet:".data) (c :: rest) then
      stripEmmetAux fuel ((c :: rest).drop 6)
    else c :: stripEmmetAux fuel rest

/-- Python `s.replace("emmet:", "")`: delete every non-overlapping
occurrence of the resource marker, scanning left to right. -/
def stripEmmet (s : Str) : Str := stripEmmetAux s.length s

/-- Suffix of `s` after the last occurrence of `c`; the whole string when
`c` does not occur.  Spec-side description of the exported external id. -/
def afterLast (c : Char) : Str → Str
  | [] => []
  | x :: rest =>
    if x = c then afterLast c rest
    else if c ∈ rest then afterLast c rest
    else x :: rest

/-- Modelled from the spec words of claim C8 ("with the fixed resource
prefix stripped"): remove the marker only when it is a prefix, once. -/
def stripPrefixEmmet (s : Str) : Str :=
  if List.isPrefixOf ("emmet:".data) s then s.drop 6 else s

/-- Embedded error kinds: `valueError` for every `ValueError` the source
raises, `indexError` for an out-of-range subscript, `attributeError` for
attribute access on `None`. -/
inductive AnnError where
  | valueError (msg : String)
  | indexError
  | attributeError
deriving DecidableEq, Repr

instance {ε α : Type} [DecidableEq ε] [DecidableEq α] : DecidableEq (Except ε α) := fun a b =>
  match a, b with
  | .ok x, .ok y =>
    if h : x = y then .isTrue (by rw [h]) else .isFalse (fun hh => h (Except.ok.inj hh))
  | .error x, .error y =>
    if h : x = y then .isTrue (by rw [h]) else .isFalse (fun hh => h (Except.error.inj hh))
  | .ok _, .error _ => .isFalse (fun hh => Except.noConfusion hh)
  | .error _, .ok _ => .isFalse (fun hh => Except.noConfusion hh)

/-- Embeds the dataclass `AnnotationNote` of `annotations.py`. -/
structure AnnotationNote where
  note_id : Str
  note_type : Str
  note_ref : Str
  text : Str
deriving DecidableEq, Repr

/-- Embeds `AnnotationNote.from_string`: four tab fields are taken directly;
three tab fields require the middle field to split into exactly two
whitespace tokens; anything else fails unpacking (a `ValueError`). -/
def AnnotationNote.from_string (ann : Str) : Except AnnError AnnotationNote :=
  let parts := splitOnChar '\t' ann
  if parts.length > 3 then
    match parts with
    | [note_id, note_type, note_ref, text] => .ok ⟨note_id, note_type, note_ref, text⟩
    | _ => .error (.valueError "unpack")
  else
    match parts with
    | [note_id, type_ref, text] =>
      match splitWs type_ref with
      | [note_type, note_ref] => .ok ⟨note_id, note_type, note_ref, text⟩
      | _ => .error (.valueError "unpack")
    | _ => .error (.valueError "unpack")

/-- Embeds the dataclass `Normalization` of `annotations.py`; the source
defaults `norm_id`, `norm_ref` and `name` to `None`, but its parser always
sets the first two, so only `name` is optional here. -/
structure Normalization where
  norm : Str
  norm_id : Str
  norm_ref : Str
  name : Option Str
deriving DecidableEq, Repr

/-- Embeds `Normalization.from_string`: tab runs are collapsed first; with
exactly four fields the record is built positionally with no display name;
otherwise the source indexes `parts[0]` and `parts[1]` (an `IndexError`
when fewer than two fields exist), takes `parts[2]` as display name only
when exactly three fields exist, and splits the second field into exactly
three whitespace tokens (a `ValueError` otherwise). -/
def Normalization.from_string (ann : Str) : Except AnnError Normalization :=
  let parts := splitOnChar '\t' (collapseTabs ann)
  if parts.length = 4 then
    match parts with
    | [norm_id, _, norm_ref, nrm] => .ok ⟨nrm, norm_id, norm_ref, none⟩
    | _ => .error (.valueError "unpack")
  else
    match parts with
    | norm_id :: ref_norm :: rest =>
      match splitWs ref_norm with
      | [_, norm_ref, nrm] =>
        .ok ⟨nrm, norm_id, norm_ref, match rest with | [x] => some x | _ => none⟩
      | _ => .error (.valueError "unpack")
    | _ => .error .indexError

/-- Embeds the dataclass `EntityAnnotation` of `annotations.py` (renamed
`EntityAnn` here); `ann_type` defaults to `None` in the source but the
parser always sets it. -/
structure EntityAnn where
  ann_id : Str
  start : Int
  «end» : Int
  text : Str
  ann_type : Str
  note : Option AnnotationNote
  norm : Option Normalization
deriving DecidableEq, Repr

/-- Embeds the loop over `coords.split(";")` in `EntityAnnotation.from_string`:
each pair must split into exactly two whitespace tokens; the id accumulates
a `-idx` suffix on every iteration, and only the tokens of the last pair
survive the loop. -/
def coordSteps (annId : Str) (idx : Nat) : List Str → Except AnnError (Str × Str × Str)
  | [p] =>
    match splitWs p with
    | [a, b] => .ok (annId ++ '-' :: natToStr idx, a, b)
    | _ => .error (.valueError "unpack")
  | p :: rest =>
    match splitWs p with
    | [_, _] => coordSteps (annId ++ '-' :: natToStr idx) (idx + 1) rest
    | _ => .error (.valueError "unpack")
  | [] => .error (.valueError "unpack")

/-- Embeds `EntityAnnotation.from_string` (a generator in the source).  The
`yield` sits after the coordinate loop, so the generator produces exactly
one record in both layouts; the list it returns here is the list of yielded
records. -/
def EntityAnn.from_string (ann : Str) : Except AnnError (List EntityAnn) :=
  let parts := splitOnChar '\t' ann
  if parts.length > 3 then
    match parts with
    | [ann_id, ann_type, start_s, end_s, text] =>
      match pyInt start_s, pyInt end_s with
      | some s, some e => .ok [⟨ann_id, s, e, text, ann_type, none, none⟩]
      | _, _ => .error (.valueError "invalid int literal")
    | _ => .error (.valueError "unpack")
  else
    match parts with
    | [ann_id, type_span, text] =>
      match splitSpaceOnce type_span with
      | [ann_type, coords] =>
        match coordSteps ann_id 0 (splitOnChar ';' coords) with
        | .ok (final_id, start_s, end_s) =>
          match pyInt start_s, pyInt end_s with
          | some s, some e => .ok [⟨final_id, s, e, text, ann_type, none, none⟩]
          | _, _ => .error (.valueError "invalid int literal")
        | .error e => .error e
      | _ => .error (.valueError "unpack")
    | _ => .error (.valueError "unpack")

/-- Embeds the dataclass `Annotations`: the dictionary of id to entity
record, plus the `defaultdict(list)` from a base id to the full ids built
from it, both as insertion-ordered association lists. -/
structure Annotations where
  annotations : List (Str × EntityAnn)
  id_map : List (Str × List Str)
deriving DecidableEq, Repr

/-- Lookup in an insertion-ordered dictionary (first matching key). -/
def dictLookup {α : Type} : List (Str × α) → Str → Option α
  | [], _ => none
  | p :: rest, k => if p.1 = k then some p.2 else dictLookup rest k

/-- Embeds reading `defaultdict(list)` at a key: an existing entry is
returned with the map unchanged; a missing key inserts an empty entry
(the default factory) and returns the empty list. -/
def ddGet (m : List (Str × List Str)) (k : Str) : List Str × List (Str × List Str) :=
  match dictLookup m k with
  | some ids => (ids, m)
  | none => ([], m ++ [(k, [])])

/-- Embeds `id_map[k].append(v)` on a `defaultdict(list)`: append to the
entry in place when the key exists, create a one-element entry otherwise. -/
def ddAppend (m : List (Str × List Str)) (k v : Str) : List (Str × List Str) :=
  match dictLookup m k with
  | some _ => m.map (fun p => if p.1 = k then (p.1, p.2 ++ [v]) else p)
  | none => m ++ [(k, [v])]

/-- Embeds `ann.ann_id.split("-")[0]`: the base id before any dash. -/
def baseId (annId : Str) : Str := (splitOnChar '-' annId).headD []

/-- Embeds `self.annotations[k].field = value` for one key `k`: every entry
with that key is updated (keys are unique in reachable states). -/
def setFieldOne (f : EntityAnn → EntityAnn) (m : List (Str × EntityAnn)) (k : Str) :
    List (Str × EntityAnn) :=
  m.map (fun p => if p.1 = k then (p.1, f p.2) else p)

/-- Embeds the loop performing one field assignment per registered id. -/
def setFieldAll (f : EntityAnn → EntityAnn) (m : List (Str × EntityAnn)) (ids : List Str) :
    List (Str × EntityAnn) :=
  ids.foldl (fun acc nid => setFieldOne f acc nid) m

/-- Embeds the loop attaching a parsed note to every id registered under
its target base id, overwriting any note already attached. -/
def setNotes (m : List (Str × EntityAnn)) (ids : List Str) (note : AnnotationNote) :
    List (Str × EntityAnn) :=
  setFieldAll (fun a => { a with note := some note }) m ids

/-- Embeds the loop attaching a parsed normalization to every id registered
under its target base id, overwriting any normalization already attached. -/
def setNorms (m : List (Str × EntityAnn)) (ids : List Str) (nrm : Normalization) :
    List (Str × EntityAnn) :=
  setFieldAll (fun a => { a with norm := some nrm }) m ids

/-- Embeds the entity branch of `add_annotation`: for each yielded record,
raise on a duplicate id, otherwise record the base-id mapping and insert. -/
def insertAnns (self : Annotations) : List EntityAnn → Except AnnError Annotations
  | [] => .ok self
  | a :: rest =>
    if (dictLookup self.annotations a.ann_id).isSome then
      .error (.valueError "Entity ID already exists")
    else
      insertAnns
        ⟨self.annotations ++ [(a.ann_id, a)], ddAppend self.id_map (baseId a.ann_id) a.ann_id⟩
        rest

/-- Embeds `Annotations.add_annotation` (renamed `add_ann`): blank lines are
ignored; dispatch is on the first character of the stripped line; `T`
inserts entity records, `#` and `N` attach a note or normalization to every
record registered under the target base id (the `defaultdict` lookup
itself may extend `id_map`), and any other first character raises. -/
def Annotations.add_ann (self : Annotations) (ann_str : Str) : Except AnnError Annotations :=
  match pyStrip ann_str with
  | [] => .ok self
  | c :: _ =>
    if c = 'T' then
      match EntityAnn.from_string ann_str with
      | .ok anns => insertAnns self anns
      | .error e => .error e
    else if c = '#' then
      match AnnotationNote.from_string ann_str with
      | .ok note =>
        .ok ⟨setNotes self.annotations (ddGet self.id_map note.note_ref).1 note,
             (ddGet self.id_map note.note_ref).2⟩
      | .error e => .error e
    else if c = 'N' then
      match Normalization.from_string ann_str with
      | .ok nrm =>
        .ok ⟨setNorms self.annotations (ddGet self.id_map nrm.norm_ref).1 nrm,
             (ddGet self.id_map nrm.norm_ref).2⟩
      | .error e => .error e
    else .error (.valueError "Unsupported kind")

/-- The records held by an index, in insertion order (`dict.values()`). -/
def Annotations.values (self : Annotations) : List EntityAnn :=
  self.annotations.map Prod.snd

/-- Embeds `Annotations.filter_by_type`: keep records of one type; the new
index is built with a fresh, empty base-id map. -/
def Annotations.filter_by_type (self : Annotations) (entity_type : Str) : Annotations :=
  ⟨(self.values).filterMap
     (fun a => if a.ann_type = entity_type then some (a.ann_id, a) else none), []⟩

/-- Embeds `Annotations.filter_by_offset`: keep records whose span lies
inside the given bounds. -/
def Annotations.filter_by_offset (self : Annotations) (start «end» : Int) : Annotations :=
  ⟨(self.values).filterMap
     (fun a => if a.start ≥ start ∧ a.«end» ≤ «end» then some (a.ann_id, a) else none), []⟩

/-- Embeds `Annotations.filter_by_donot_list`: a record with a
normalization is dropped when its raw reference with every `emmet:`
occurrence removed is in the list; a record without one is kept. -/
def Annotations.filter_by_donot_list (self : Annotations) (donot_list : List Str) : Annotations :=
  ⟨(self.values).filterMap
     (fun a =>
       match a.norm with
       | some n => if stripEmmet n.norm ∈ donot_list then none else some (a.ann_id, a)
       | none => some (a.ann_id, a)), []⟩

/-- One exported row of `to_pandas` (column names as in the source). -/
structure Row where
  doc_id : Str
  part : Str
  ann_id : Str
  start : Int
  «end» : Int
  text : Str
  imui : Str
deriving DecidableEq, Repr

/-- Embeds the row-building loop of `to_pandas`: accessing `ann.norm.norm`
with `norm` unset raises an `AttributeError`; otherwise the `imui` column
is `norm.split(":")[-1]`. -/
def rowsOf (doc_id part : Str) : List EntityAnn → Except AnnError (List Row)
  | [] => .ok []
  | a :: rest =>
    match a.norm with
    | none => .error .attributeError
    | some n =>
      match rowsOf doc_id part rest with
      | .ok rows =>
        .ok (⟨doc_id, part, a.ann_id, a.start, a.«end», a.text,
              (splitOnChar ':' n.norm).getLastD []⟩ :: rows)
      | .error e => .error e

/-- Embeds `Annotations.to_pandas` as the list of rows it would build. -/
def Annotations.to_pandas (self : Annotations) (doc_id part : Str) :
    Except AnnError (List Row) :=
  rowsOf doc_id part self.values

/-- Embeds one iteration of the loop of `DataLoader._load_ann_file`: the
line is stripped of newlines and added; a `ValueError` is caught and logged
(the state is unchanged — every raising path of `add_annotation` raises
before mutating); any other error propagates. -/
def loadLine (st : Annotations) (row : Str) : Except AnnError Annotations :=
  match Annotations.add_ann st (stripNl row) with
  | .ok st' => .ok st'
  | .error (.valueError _) => .ok st
  | .error e => .error e

/-- Embeds the per-file loop of `DataLoader._load_ann_file` over the lines
of one annotation file, starting from a fresh index. -/
def loadAnnFile (st : Annotations) : List Str → Except AnnError Annotations
  | [] => .ok st
  | row :: rest =>
    match loadLine st row with
    | .ok st' => loadAnnFile st' rest
    | .error e => .error e

/-! Concrete data for the end-to-end scenario of claim C2. -/

/-- The four input lines of the end-to-end scenario. -/
def c2Lines : List Str :=
  ["T1\tOrganization 0 4\tSony".data, "T2\tPerson 10 14\tJohn".data,
   "#1\tAnnotatorNotes T1\tlikely correct".data,
   "N1\tReference T1 Wikipedia:534366\tSony Corp".data]

/-- The note parsed from the third line of the scenario. -/
def c2Note : AnnotationNote :=
  ⟨"#1".data, "AnnotatorNotes".data, "T1".data, "likely correct".data⟩

/-- The normalization parsed from the fourth line of the scenario. -/
def c2Norm : Normalization :=
  ⟨"Wikipedia:534366".data, "N1".data, "T1".data, some ("Sony Corp".data)⟩

/-- The index the scenario's four lines produce: two records, keyed by the
suffixed ids the legacy 3-field layout yields. -/
def c2St : Annotations :=
  ⟨[("T1-0".data,
     ⟨"T1-0".data, 0, 4, "Sony".data, "Organization".data, some c2Note, some c2Norm⟩),
    ("T2-0".data,
     ⟨"T2-0".data, 10, 14, "John".data, "Person".data, none, none⟩)],
   [("T1".data, ["T1-0".data]), ("T2".data, ["T2-0".data])]⟩

/-- Claim C1: for a legacy entity line with two coordinate pairs the source
yields a single record whose id compounds both indices and whose span is
the last pair's, because the `yield` sits after the coordinate loop; the
claimed per-pair records `T1-0` and `T1-1` are never produced. -/
theorem entity_legacy_multipair_single_yield :
    EntityAnn.from_string ("T1\tOrganization 0 4;6 9\tSony".data) =
      .ok [⟨"T1-0-1".data, 6, 9, "Sony".data, "Organization".data, none, none⟩] := by
  decide

/-- Claim C2 (counterexample): on the four scenario lines the export after
`filter_by_type` does not produce the claimed row with `ann_id` `T1`; the
single exported row carries `ann_id` `T1-0`. -/
theorem end_to_end_export_row_id_cex :
    loadAnnFile ⟨[], []⟩ c2Lines = .ok c2St ∧
    Annotations.to_pandas (Annotations.filter_by_type c2St ("Organization".data))
        ("D1".data) ("1".data)
      ≠ .ok [⟨"D1".data, "1".data, "T1".data, 0, 4, "Sony".data, "534366".data⟩] := by
  constructor
  · decide
  · decide

/-- Claim C2 (amended): the four scenario lines produce an index of size 2
whose record `T1-0` (the id the legacy layout assigns to the `T1` line)
carries the note text and the normalization raw reference; export on the
full index fails because `T2-0` has no normalization; after
`filter_by_type` export succeeds with the single row whose `ann_id` is
`T1-0`. -/
theorem end_to_end_pipeline_amended :
    loadAnnFile ⟨[], []⟩ c2Lines = .ok c2St ∧
    c2St.annotations.length = 2 ∧
    dictLookup c2St.annotations ("T1-0".data) =
      some ⟨"T1-0".data, 0, 4, "Sony".data, "Organization".data, some c2Note, some c2Norm⟩ ∧
    c2Note.text = "likely correct".data ∧
    c2Norm.norm = "Wikipedia:534366".data ∧
    Annotations.to_pandas c2St ("D1".data) ("1".data) = .error .attributeError ∧
    Annotations.to_pandas (Annotations.filter_by_type c2St ("Organization".data))
        ("D1".data) ("1".data)
      = .ok [⟨"D1".data, "1".data, "T1-0".data, 0, 4, "Sony".data, "534366".data⟩] := by
  refine ⟨by decide, by decide, by decide, by decide, by decide, by decide, by decide⟩

/-- Claim C3 (counterexample): a duplicate entity id and an unsupported
first character are both raised as value errors, which the loader catches;
the file's load continues and the later `T2` line is still ingested.  A
normalization line with a single tab field, however, raises an index error
that the loader does not catch, aborting the file. -/
theorem loader_recovery_cex :
    loadAnnFile ⟨[], []⟩
        ["T1\tOrganization\t0\t4\tSony".data, "T1\tOrganization\t0\t4\tSony".data,
         "X9\tfoo".data, "T2\tPerson\t10\t14\tJohn".data]
      = .ok ⟨[("T1".data, ⟨"T1".data, 0, 4, "Sony".data, "Organization".data, none, none⟩),
              ("T2".data, ⟨"T2".data, 10, 14, "John".data, "Person".data, none, none⟩)],
             [("T1".data, ["T1".data]), ("T2".data, ["T2".data])]⟩ ∧
    loadAnnFile ⟨[], []⟩ ["N1".data, "T2\tPerson\t10\t14\tJohn".data] = .error .indexError := by
  constructor
  · decide
  · decide

/-- Claim C4 (counterexample): a normalization line that collapses to two
tab fields does not fail; the second field supplies the target id and raw
reference and the display name is absent. -/
theorem norm_two_field_success_cex :
    (splitOnChar '\t' (collapseTabs ("N1\tReference T1 Wikipedia:534366".data))).length = 2 ∧
    Normalization.from_string ("N1\tReference T1 Wikipedia:534366".data) =
      .ok ⟨"Wikipedia:534366".data, "N1".data, "T1".data, none⟩ := by
  constructor
  · decide
  · decide

/-- Claim C9 (counterexample): a 3-field note line whose second field
contains whitespace but splits into three tokens fails to parse, against
the claim that any whitespace-containing second field parses. -/
theorem note_three_token_cex :
    (splitOnChar '\t' ("#1\tAnnotatorNotes T1 x\tnote text".data)).length = 3 ∧
    (splitOnChar '\t' ("#1\tAnnotatorNotes T1 x\tnote text".data)).get? 1 =
      some ("AnnotatorNotes T1 x".data) ∧
    ' ' ∈ ("AnnotatorNotes T1 x".data) ∧
    AnnotationNote.from_string ("#1\tAnnotatorNotes T1 x\tnote text".data) =
      .error (.valueError "unpack") := by
  refine ⟨by decide, by decide, by decide, by decide⟩

/-- Index for the C8 counterexample: one record whose normalization raw
reference contains the resource marker in the middle, built from lines. -/
def c8St : Annotations :=
  ⟨[("T1-0".data,
     ⟨"T1-0".data, 0, 4, "Sony".data, "Organization".data, none,
      some ⟨"a:emmet:b".data, "N1".data, "T1".data, some ("X".data)⟩⟩)],
   [("T1".data, ["T1-0".data])]⟩

/-- Claim C8 (counterexample): the source deletes every occurrence of
`emmet:`, not only a prefix.  The record's raw reference prefix-stripped is
not in the exclusion set, yet the record is removed. -/
theorem donot_list_prefix_cex :
    loadAnnFile ⟨[], []⟩
        ["T1\tOrganization 0 4\tSony".data, "N1\tReference T1 a:emmet:b\tX".data]
      = .ok c8St ∧
    stripPrefixEmmet ("a:emmet:b".data) ∉ [("a:b".data)] ∧
    (Annotations.filter_by_donot_list c8St [("a:b".data)]).annotations = [] := by
  refine ⟨by decide, by decide, by decide⟩

/-- Claim C3 (amended): per-line error handling of the loader.  A line
whose addition raises a value error — malformed records, duplicate entity
ids, unsupported first characters — is caught and logged, and ingestion
continues on the unchanged index; a successful addition continues on the
new index; an index error propagates and aborts the file; and a
normalization line that collapses to a single tab field raises exactly
such an index error. -/
theorem loader_error_handling_amended :
    (∀ (st : Annotations) (row : Str) (rest : List Str) (m : String),
       Annotations.add_ann st (stripNl row) = .error (.valueError m) →
       loadAnnFile st (row :: rest) = loadAnnFile st rest) ∧
    (∀ (st st' : Annotations) (row : Str) (rest : List Str),
       Annotations.add_ann st (stripNl row) = .ok st' →
       loadAnnFile st (row :: rest) = loadAnnFile st' rest) ∧
    (∀ (st : Annotations) (row : Str) (rest : List Str),
       Annotations.add_ann st (stripNl row) = .error .indexError →
       loadAnnFile st (row :: rest) = .error .indexError) ∧
    (∀ (st : Annotations) (row : Str) (cs : Str),
       pyStrip row = 'N' :: cs →
       (splitOnChar '\t' (collapseTabs row)).length = 1 →
       Annotations.add_ann st row = .error .indexError) := by
  refine ⟨?_, ?_, ?_, ?_⟩
  · intro st row rest m h
    simp [loadAnnFile, loadLine, h]
  · intro st st' row rest h
    simp [loadAnnFile, loadLine, h]
  · intro st row rest h
    simp [loadAnnFile, loadLine, h]
  · intro st row cs h1 h2
    have h4 : ∃ x, splitOnChar '\t' (collapseTabs row) = [x] := by
      rcases h : splitOnChar '\t' (collapseTabs row) with _ | ⟨x, _ | ⟨y, t⟩⟩
      · rw [h] at h2; simp at h2
      · exact ⟨x, rfl⟩
      · rw [h] at h2; simp at h2
    rcases h4 with ⟨x, hx⟩
    simp [Annotations.add_ann, h1, Normalization.from_string, hx]

/-- Claim C9 (amended): the note parser takes four tab fields directly;
with three tab fields it requires the second field to consist of exactly
two whitespace-separated tokens, which become type and target; it fails
with a value error when the field count is neither 3 nor 4, or when the
3-field second field does not split into exactly two tokens. -/
theorem note_parse_amended :
    (∀ (s a b c d : Str),
       splitOnChar '\t' s = [a, b, c, d] →
       AnnotationNote.from_string s = .ok ⟨a, b, c, d⟩) ∧
    (∀ (s a b c x y : Str),
       splitOnChar '\t' s = [a, b, c] → splitWs b = [x, y] →
       AnnotationNote.from_string s = .ok ⟨a, x, y, c⟩) ∧
    (∀ (s a b c : Str),
       splitOnChar '\t' s = [a, b, c] → (∀ x y, splitWs b ≠ [x, y]) →
       AnnotationNote.from_string s = .error (.valueError "unpack")) ∧
    (∀ s : Str,
       (splitOnChar '\t' s).length ≠ 3 → (splitOnChar '\t' s).length ≠ 4 →
       AnnotationNote.from_string s = .error (.valueError "unpack")) := by
  refine ⟨?_, ?_, ?_, ?_⟩
  · intro s a b c d h
    simp [AnnotationNote.from_string, h]
  · intro s a b c x y h hw
    simp [AnnotationNote.from_string, h, hw]
  · intro s a b c h hw
    rcases hs : splitWs b with _ | ⟨w1, _ | ⟨w2, _ | ⟨w3, wr⟩⟩⟩
    · simp [AnnotationNote.from_string, h, hs]
    · simp [AnnotationNote.from_string, h, hs]
    · exact absurd hs (hw w1 w2)
    · simp [AnnotationNote.from_string, h, hs]
  · intro s h3 h4
    rcases hp : splitOnChar '\t' s with _ | ⟨p1, _ | ⟨p2, _ | ⟨p3, _ | ⟨p4, _ | ⟨p5, pr⟩⟩⟩⟩⟩
    · simp [AnnotationNote.from_string, hp]
    · simp [AnnotationNote.from_string, hp]
    · simp [AnnotationNote.from_string, hp]
    · rw [hp] at h3; simp at h3
    · rw [hp] at h4; simp at h4
    · simp [AnnotationNote.from_string, hp]

/-- Claim C4 (amended): the normalization parser, after collapsing tab
runs, takes exactly four fields positionally with no display name; with
any other field count of at least two it succeeds exactly when the second
field splits into exactly three whitespace tokens (target id and raw
reference being the last two), the display name being the third field
exactly when the count is three; a single-field line raises an index
error, not the claimed malformed-record value error. -/
theorem norm_parse_amended :
    (∀ (s a b c d : Str),
       splitOnChar '\t' (collapseTabs s) = [a, b, c, d] →
       Normalization.from_string s = .ok ⟨d, a, c, none⟩) ∧
    (∀ (s a b : Str) (rest : List Str) (x y z : Str),
       splitOnChar '\t' (collapseTabs s) = a :: b :: rest →
       (a :: b :: rest).length ≠ 4 →
       splitWs b = [x, y, z] →
       Normalization.from_string s =
         .ok ⟨z, a, y, match rest with | [w] => some w | _ => none⟩) ∧
    (∀ (s a b : Str) (rest : List Str),
       splitOnChar '\t' (collapseTabs s) = a :: b :: rest →
       (a :: b :: rest).length ≠ 4 →
       (∀ x y z, splitWs b ≠ [x, y, z]) →
       Normalization.from_string s = .error (.valueError "unpack")) ∧
    (∀ (s x : Str),
       splitOnChar '\t' (collapseTabs s) = [x] →
       Normalization.from_string s = .error .indexError) := by
  refine ⟨?_, ?_, ?_, ?_⟩
  · intro s a b c d h
    simp [Normalization.from_string, h]
  · intro s a b rest x y z h h4 hw
    rcases rest with _ | ⟨r1, _ | ⟨r2, _ | ⟨r3, rr⟩⟩⟩
    · simp [Normalization.from_string, h, hw]
    · simp [Normalization.from_string, h, hw]
    · simp at h4
    · simp [Normalization.from_string, h, hw]
  · intro s a b rest h h4 hw
    have hws : ∀ t : List Str, splitWs b = t → Normalization.from_string s =
        (match t with
         | [_, norm_ref, nrm] =>
           .ok ⟨nrm, a, norm_ref, match rest with | [w] => some w | _ => none⟩
         | _ => .error (.valueError "unpack")) := by
      intro t ht
      rcases rest with _ | ⟨r1, _ | ⟨r2, _ | ⟨r3, rr⟩⟩⟩
      · simp [Normalization.from_string, h, ht]
      · simp [Normalization.from_string, h, ht]
      · simp at h4
      · simp [Normalization.from_string, h, ht]
    rcases hs : splitWs b with _ | ⟨w1, _ | ⟨w2, _ | ⟨w3, _ | ⟨w4, wr⟩⟩⟩⟩
    · exact hws _ hs
    · exact hws _ hs
    · exact hws _ hs
    · exact absurd hs (hw w1 w2 w3)
    · exact hws _ hs
  · intro s x h
    simp [Normalization.from_string, h]

/-- Lookup in a cons of an association list. -/
theorem dictLookup_cons {α : Type} (q : Str × α) (rest : List (Str × α)) (k : Str) :
    dictLookup (q :: rest) k = if q.1 = k then some q.2 else dictLookup rest k := rfl

/-- One field assignment changes exactly the looked-up record at its key. -/
theorem dictLookup_setFieldOne (f : EntityAnn → EntityAnn)
    (m : List (Str × EntityAnn)) (nid k : Str) :
    dictLookup (setFieldOne f m nid) k =
      if k = nid then (dictLookup m k).map f else dictLookup m k := by
  induction m with
  | nil => by_cases h : k = nid <;> simp [setFieldOne, dictLookup, h]
  | cons p rest ih =>
    simp only [setFieldOne, List.map_cons] at ih ⊢
    by_cases hpid : p.1 = nid
    · by_cases hpk : p.1 = k
      · have hk : k = nid := by rw [← hpk, hpid]
        rw [if_pos hpid, dictLookup_cons, dictLookup_cons]
        simp [hpk, hk]
      · have hk : ¬ k = nid := by
          intro hh
          exact hpk (by rw [hpid, hh])
        rw [if_pos hpid, dictLookup_cons, dictLookup_cons]
        simp only [if_neg hpk]
        rw [ih, if_neg hk]
    · rw [if_neg hpid, dictLookup_cons, dictLookup_cons]
      by_cases hpk : p.1 = k
      · have hk : ¬ k = nid := by
          intro hh
          exact hpid (by rw [hpk, hh])
        simp [hpk, hk]
      · rw [if_neg hpk, if_neg hpk, ih]

/-- Attaching over a list of ids: the looked-up record is mapped exactly
when its key occurs among the ids, no matter how often. -/
theorem dictLookup_setFieldAll (f : EntityAnn → EntityAnn)
    (hf : ∀ a, f (f a) = f a) (ids : List Str) (m : List (Str × EntityAnn)) (k : Str) :
    dictLookup (setFieldAll f m ids) k =
      if k ∈ ids then (dictLookup m k).map f else dictLookup m k := by
  induction ids generalizing m with
  | nil => simp [setFieldAll]
  | cons i ids ih =>
    have hstep : setFieldAll f m (i :: ids) = setFieldAll f (setFieldOne f m i) ids := rfl
    rw [hstep, ih, dictLookup_setFieldOne]
    have hmapmap : ∀ o : Option EntityAnn, (o.map f).map f = o.map f := by
      intro o
      cases o with
      | none => rfl
      | some a => simp [hf]
    by_cases hki : k = i
    · subst hki
      by_cases hmem : k ∈ ids
      · simp [hmem, hmapmap]
      · simp [hmem, hmapmap]
    · by_cases hmem : k ∈ ids
      · simp [hki, hmem]
      · simp [hki, hmem]

/-- A missing key read on the `defaultdict` extends it with an empty entry. -/
theorem ddGet_none {m : List (Str × List Str)} {k : Str}
    (h : dictLookup m k = none) : ddGet m k = ([], m ++ [(k, [])]) := by
  unfold ddGet
  rw [h]

/-- A present key read on the `defaultdict` returns its list, unchanged map. -/
theorem ddGet_some {m : List (Str × List Str)} {k : Str} {ids : List Str}
    (h : dictLookup m k = some ids) : ddGet m k = (ids, m) := by
  unfold ddGet
  rw [h]

/-- The note branch of `add_annotation` in one equation. -/
theorem add_ann_note (st : Annotations) (l : Str) (note : AnnotationNote) (cs : Str)
    (h1 : pyStrip l = '#' :: cs) (h2 : AnnotationNote.from_string l = .ok note) :
    Annotations.add_ann st l =
      .ok ⟨setNotes st.annotations (ddGet st.id_map note.note_ref).1 note,
           (ddGet st.id_map note.note_ref).2⟩ := by
  simp [Annotations.add_ann, h1, h2]

/-- The normalization branch of `add_annotation` in one equation. -/
theorem add_ann_norm (st : Annotations) (l : Str) (nrm : Normalization) (cs : Str)
    (h1 : pyStrip l = 'N' :: cs) (h2 : Normalization.from_string l = .ok nrm) :
    Annotations.add_ann st l =
      .ok ⟨setNorms st.annotations (ddGet st.id_map nrm.norm_ref).1 nrm,
           (ddGet st.id_map nrm.norm_ref).2⟩ := by
  simp [Annotations.add_ann, h1, h2]

/-- Claim C5: adding a parseable note (or normalization) line whose target
base id has no registered entity ids succeeds and leaves the record map
unchanged; once ids are registered under the base id, the parsed record is
attached to exactly the records with those ids, unconditionally replacing
whatever was previously attached (so a second note or normalization
overwrites the first). -/
theorem link_noop_attach_overwrite :
    (∀ (st : Annotations) (l : Str) (note : AnnotationNote) (cs : Str),
       pyStrip l = '#' :: cs → AnnotationNote.from_string l = .ok note →
       Annotations.add_ann st l =
         .ok ⟨setNotes st.annotations (ddGet st.id_map note.note_ref).1 note,
              (ddGet st.id_map note.note_ref).2⟩ ∧
       (dictLookup st.id_map note.note_ref = none →
          setNotes st.annotations (ddGet st.id_map note.note_ref).1 note = st.annotations) ∧
       (∀ (ids : List Str) (k : Str), dictLookup st.id_map note.note_ref = some ids →
          dictLookup (setNotes st.annotations ids note) k =
            if k ∈ ids then
              (dictLookup st.annotations k).map (fun a => { a with note := some note })
            else dictLookup st.annotations k)) ∧
    (∀ (st : Annotations) (l : Str) (nrm : Normalization) (cs : Str),
       pyStrip l = 'N' :: cs → Normalization.from_string l = .ok nrm →
       Annotations.add_ann st l =
         .ok ⟨setNorms st.annotations (ddGet st.id_map nrm.norm_ref).1 nrm,
              (ddGet st.id_map nrm.norm_ref).2⟩ ∧
       (dictLookup st.id_map nrm.norm_ref = none →
          setNorms st.annotations (ddGet st.id_map nrm.norm_ref).1 nrm = st.annotations) ∧
       (∀ (ids : List Str) (k : Str), dictLookup st.id_map nrm.norm_ref = some ids →
          dictLookup (setNorms st.annotations ids nrm) k =
            if k ∈ ids then
              (dictLookup st.annotations k).map (fun a => { a with norm := some nrm })
            else dictLookup st.annotations k)) := by
  constructor
  · intro st l note cs h1 h2
    refine ⟨add_ann_note st l note cs h1 h2, ?_, ?_⟩
    · intro hnone
      rw [ddGet_none hnone]
      rfl
    · intro ids k _
      exact dictLookup_setFieldAll (fun a => { a with note := some note })
        (fun a => rfl) ids st.annotations k
  · intro st l nrm cs h1 h2
    refine ⟨add_ann_norm st l nrm cs h1 h2, ?_, ?_⟩
    · intro hnone
      rw [ddGet_none hnone]
      rfl
    · intro ids k _
      exact dictLookup_setFieldAll (fun a => { a with norm := some nrm })
        (fun a => rfl) ids st.annotations k

/-- Claim C10: adding a parseable note (or normalization) line whose target
id has no entry in the base-id map leaves the record map unchanged but does
extend the base-id map with an empty-list entry for the target — the
`defaultdict` lookup creates the key, so the no-op is not a pure no-op on
the full index state. -/
theorem link_unknown_target_frame :
    (∀ (st : Annotations) (l : Str) (note : AnnotationNote) (cs : Str),
       pyStrip l = '#' :: cs → AnnotationNote.from_string l = .ok note →
       dictLookup st.id_map note.note_ref = none →
       Annotations.add_ann st l =
         .ok ⟨st.annotations, st.id_map ++ [(note.note_ref, [])]⟩) ∧
    (∀ (st : Annotations) (l : Str) (nrm : Normalization) (cs : Str),
       pyStrip l = 'N' :: cs → Normalization.from_string l = .ok nrm →
       dictLookup st.id_map nrm.norm_ref = none →
       Annotations.add_ann st l =
         .ok ⟨st.annotations, st.id_map ++ [(nrm.norm_ref, [])]⟩) := by
  constructor
  · intro st l note cs h1 h2 hnone
    rw [add_ann_note st l note cs h1 h2, ddGet_none hnone]
    rfl
  · intro st l nrm cs h1 h2 hnone
    rw [add_ann_norm st l nrm cs h1 h2, ddGet_none hnone]
    rfl

/-- The records of a keyed filter are the records passing the predicate. -/
theorem map_snd_filterMap_if (p : EntityAnn → Prop) [DecidablePred p]
    (l : List EntityAnn) :
    (l.filterMap (fun a => if p a then some (a.ann_id, a) else none)).map Prod.snd =
      l.filter (fun a => decide (p a)) := by
  induction l with
  | nil => rfl
  | cons a rest ih =>
    by_cases h : p a
    · simp only [List.filterMap_cons, if_pos h, List.filter_cons,
        decide_eq_true h, List.map_cons, ih]
      simp
    · simp only [List.filterMap_cons, if_neg h, List.filter_cons]
      rw [decide_eq_false h]
      simpa using ih

/-- A keyed filter is unchanged by restricting its input to the records
that already pass the predicate. -/
theorem filterMap_if_filter (p : EntityAnn → Prop) [DecidablePred p]
    (l : List EntityAnn) :
    ((l.filter (fun a => decide (p a))).filterMap
        (fun a => if p a then some (a.ann_id, a) else none)) =
      l.filterMap (fun a => if p a then some (a.ann_id, a) else none) := by
  induction l with
  | nil => rfl
  | cons a rest ih =>
    by_cases h : p a
    · simp only [List.filter_cons, decide_eq_true h]
      simp only [if_true, List.filterMap_cons, if_pos h, ih]
    · simp only [List.filter_cons, List.filterMap_cons, if_neg h]
      rw [decide_eq_false h]
      simpa using ih

/-- An entry of a keyed filter comes from a passing record, keyed by it. -/
theorem mem_filterMap_if_iff (p : EntityAnn → Prop) [DecidablePred p]
    (l : List EntityAnn) (kv : Str × EntityAnn) :
    kv ∈ l.filterMap (fun a => if p a then some (a.ann_id, a) else none) ↔
      ∃ a, a ∈ l ∧ p a ∧ kv = (a.ann_id, a) := by
  rw [List.mem_filterMap]
  constructor
  · rintro ⟨a, ha, hfa⟩
    by_cases h : p a
    · rw [if_pos h] at hfa
      exact ⟨a, ha, h, (Option.some.inj hfa).symm⟩
    · rw [if_neg h] at hfa
      cases hfa
  · rintro ⟨a, ha, hpa, hkv⟩
    exact ⟨a, ha, by rw [if_pos hpa, hkv]⟩

/-- Claim C7: `filter_by_offset` keeps exactly the records whose span is
contained in the bounds (each keyed by its own id), and reapplying it with
the same bounds returns an equal index. -/
theorem filter_by_offset_spec :
    ∀ (self : Annotations) (s e : Int),
      (∀ kv : Str × EntityAnn,
         kv ∈ (Annotations.filter_by_offset self s e).annotations ↔
           ∃ a, a ∈ self.values ∧ a.start ≥ s ∧ a.«end» ≤ e ∧ kv = (a.ann_id, a)) ∧
      Annotations.filter_by_offset (Annotations.filter_by_offset self s e) s e =
        Annotations.filter_by_offset self s e := by
  intro self s e
  constructor
  · intro kv
    rw [show (Annotations.filter_by_offset self s e).annotations =
        (self.values).filterMap
          (fun a => if a.start ≥ s ∧ a.«end» ≤ e then some (a.ann_id, a) else none) from rfl]
    rw [mem_filterMap_if_iff (fun a => a.start ≥ s ∧ a.«end» ≤ e)]
    constructor
    · rintro ⟨a, ha, ⟨h1, h2⟩, hkv⟩
      exact ⟨a, ha, h1, h2, hkv⟩
    · rintro ⟨a, ha, h1, h2, hkv⟩
      exact ⟨a, ha, ⟨h1, h2⟩, hkv⟩
  · show Annotations.mk _ _ = Annotations.mk _ _
    congr 1
    rw [show (Annotations.filter_by_offset self s e).values =
        ((self.values).filterMap
          (fun a => if a.start ≥ s ∧ a.«end» ≤ e then some (a.ann_id, a) else none)).map
            Prod.snd from rfl]
    rw [map_snd_filterMap_if (fun a => a.start ≥ s ∧ a.«end» ≤ e)]
    exact filterMap_if_filter (fun a => a.start ≥ s ∧ a.«end» ≤ e) self.values

/-- The exclusion filter emits an entry exactly for a record whose
normalization, if any, survives the exclusion set after marker removal. -/
theorem donot_keep_iff (donot : List Str) (b : EntityAnn) (kv : Str × EntityAnn) :
    ((match b.norm with
      | some n => if stripEmmet n.norm ∈ donot then none else some (b.ann_id, b)
      | none => some (b.ann_id, b)) = some kv) ↔
      (∀ n, b.norm = some n → stripEmmet n.norm ∉ donot) ∧ kv = (b.ann_id, b) := by
  cases hb : b.norm with
  | none => simp [eq_comm]
  | some n =>
    by_cases h : stripEmmet n.norm ∈ donot
    · simp [h, eq_comm]
    · simp [h, eq_comm]

/-- Claim C8 (amended): `filter_by_donot_list` keeps every record that has
no normalization, and keeps a normalized record exactly when its raw
reference with every occurrence of the resource marker removed (the
source's `replace`, not a prefix strip) is outside the exclusion set. -/
theorem donot_list_amended :
    ∀ (self : Annotations) (donot : List Str),
      (∀ a, a ∈ self.values → a.norm = none →
         a ∈ (Annotations.filter_by_donot_list self donot).values) ∧
      (∀ a n, a.norm = some n →
         (a ∈ (Annotations.filter_by_donot_list self donot).values ↔
           a ∈ self.values ∧ stripEmmet n.norm ∉ donot)) := by
  intro self donot
  have hmem : ∀ a, a ∈ (Annotations.filter_by_donot_list self donot).values ↔
      a ∈ self.values ∧ (∀ n, a.norm = some n → stripEmmet n.norm ∉ donot) := by
    intro a
    rw [show (Annotations.filter_by_donot_list self donot).values =
        ((self.values).filterMap
          (fun b =>
            match b.norm with
            | some n => if stripEmmet n.norm ∈ donot then none else some (b.ann_id, b)
            | none => some (b.ann_id, b))).map Prod.snd from rfl]
    rw [List.mem_map]
    constructor
    · rintro ⟨kv, hkv, hsnd⟩
      rw [List.mem_filterMap] at hkv
      rcases hkv with ⟨b, hb, hfb⟩
      rcases (donot_keep_iff donot b kv).mp hfb with ⟨hkeep, hkvb⟩
      rw [hkvb] at hsnd
      have hba : b = a := hsnd
      subst hba
      exact ⟨hb, hkeep⟩
    · rintro ⟨ha, hkeep⟩
      refine ⟨(a.ann_id, a), ?_, rfl⟩
      rw [List.mem_filterMap]
      exact ⟨a, ha, (donot_keep_iff donot a (a.ann_id, a)).mpr ⟨hkeep, rfl⟩⟩
  constructor
  · intro a ha hnone
    exact (hmem a).mpr ⟨ha, fun n hn => by rw [hnone] at hn; cases hn⟩
  · intro a n hsome
    rw [hmem a]
    constructor
    · rintro ⟨ha, hkeep⟩
      exact ⟨ha, hkeep n hsome⟩
    · rintro ⟨ha, hnot⟩
      refine ⟨ha, fun n' hn' => ?_⟩
      rw [hsome] at hn'
      rw [← Option.some.inj hn']
      exact hnot

/-- Splitting never yields an empty list of chunks. -/
theorem splitOnChar_ne_nil (c : Char) (s : Str) : splitOnChar c s ≠ [] := by
  induction s with
  | nil => simp [splitOnChar]
  | cons x rest ih =>
    simp only [splitOnChar]
    split_ifs with h
    · simp
    · rcases hr : splitOnChar c rest with _ | ⟨hh, t⟩
      · simp
      · simp

/-- A string without the separator splits into itself alone. -/
theorem splitOnChar_not_mem {c : Char} {s : Str} (h : c ∉ s) : splitOnChar c s = [s] := by
  induction s with
  | nil => rfl
  | cons x rest ih =>
    have hx : ¬ x = c := by
      intro hh
      exact h (hh ▸ List.mem_cons_self x rest)
    have hr : c ∉ rest := fun hm => h (List.mem_cons_of_mem _ hm)
    simp only [splitOnChar, if_neg hx]
    rw [ih hr]

/-- A string containing the separator splits into at least two chunks. -/
theorem splitOnChar_length_ge_two {c : Char} {s : Str} (h : c ∈ s) :
    2 ≤ (splitOnChar c s).length := by
  induction s with
  | nil => cases h
  | cons x rest ih =>
    by_cases hx : x = c
    · simp only [splitOnChar, if_pos hx]
      rcases hr : splitOnChar c rest with _ | ⟨a, t⟩
      · exact absurd hr (splitOnChar_ne_nil c rest)
      · simp
    · have hrest : c ∈ rest := by
        rcases List.mem_cons.mp h with hcx | hm
        · exact absurd hcx.symm hx
        · exact hm
      have h2 := ih hrest
      simp only [splitOnChar, if_neg hx]
      rcases hr : splitOnChar c rest with _ | ⟨a, t⟩
      · exact absurd hr (splitOnChar_ne_nil c rest)
      · rw [hr] at h2
        simpa using h2

/-- The last chunk of the split is the suffix after the last separator. -/
theorem getLastD_splitOnChar (c : Char) (s : Str) :
    (splitOnChar c s).getLastD [] = afterLast c s := by
  induction s with
  | nil => rfl
  | cons x rest ih =>
    by_cases hx : x = c
    · simp only [splitOnChar, if_pos hx, afterLast]
      rw [List.getLastD_cons, ih]
    · by_cases hm : c ∈ rest
      · have h2 := splitOnChar_length_ge_two hm
        rcases hr : splitOnChar c rest with _ | ⟨a, _ | ⟨b, t⟩⟩
        · exact absurd hr (splitOnChar_ne_nil c rest)
        · rw [hr] at h2
          simp at h2
        · simp only [splitOnChar, if_neg hx]
          rw [hr]
          rw [hr] at ih
          rw [List.getLastD_cons] at ih ⊢
          rw [List.getLastD_cons] at ih ⊢
          rw [ih]
          simp only [afterLast, if_neg hx, if_pos hm]
      · have hnm : c ∉ x :: rest := by
          intro hmm
          rcases List.mem_cons.mp hmm with hcx | hm2
          · exact hx hcx.symm
          · exact hm hm2
        rw [splitOnChar_not_mem hnm]
        simp only [afterLast, if_neg hx, if_neg hm]
        rfl

/-- The raw reference of a record's normalization (empty when absent);
used only to state the export property. -/
def normRaw (a : EntityAnn) : Str :=
  match a.norm with
  | some n => n.norm
  | none => []

/-- The row the spec ascribes to a record: its own fields plus the suffix
of its normalization's raw reference after the last colon. -/
def rowSpec (doc_id part : Str) (a : EntityAnn) : Row :=
  ⟨doc_id, part, a.ann_id, a.start, a.«end», a.text, afterLast ':' (normRaw a)⟩

/-- Export succeeds on fully normalized record lists, one row per record. -/
theorem rowsOf_ok (doc_id part : Str) (l : List EntityAnn)
    (h : ∀ a, a ∈ l → a.norm ≠ none) :
    rowsOf doc_id part l = .ok (l.map (rowSpec doc_id part)) := by
  induction l with
  | nil => rfl
  | cons a rest ih =>
    have ha := h a (List.mem_cons_self a rest)
    cases hn : a.norm with
    | none => exact absurd hn ha
    | some n =>
      simp only [rowsOf, hn]
      rw [ih (fun b hb => h b (List.mem_cons_of_mem _ hb))]
      simp only [rowSpec, normRaw, hn, List.map_cons]
      rw [← getLastD_splitOnChar]

/-- Export fails with an attribute error when a record lacks a
normalization. -/
theorem rowsOf_err (doc_id part : Str) (l : List EntityAnn)
    (h : ∃ a, a ∈ l ∧ a.norm = none) :
    rowsOf doc_id part l = .error .attributeError := by
  induction l with
  | nil =>
    rcases h with ⟨a, ha, _⟩
    cases ha
  | cons a rest ih =>
    cases hn : a.norm with
    | none => simp [rowsOf, hn]
    | some n =>
      rcases h with ⟨b, hb, hbn⟩
      rcases List.mem_cons.mp hb with hba | hbrest
      · rw [hba] at hbn
        rw [hn] at hbn
        cases hbn
      · have hrec := ih ⟨b, hbrest, hbn⟩
        simp [rowsOf, hn, hrec]

/-- Claim C6: on an index in which every record carries a normalization,
`to_pandas` produces exactly one row per record, in order, with the
record's own fields and the external id equal to the suffix of the raw
reference after its last colon; when any record lacks a normalization the
export fails with an attribute error. -/
theorem export_rows_spec :
    ∀ (self : Annotations) (doc_id part : Str),
      ((∀ a, a ∈ self.values → a.norm ≠ none) →
        Annotations.to_pandas self doc_id part =
          .ok (self.values.map (rowSpec doc_id part))) ∧
      ((∃ a, a ∈ self.values ∧ a.norm = none) →
        Annotations.to_pandas self doc_id part = .error .attributeError) := by
  intro self doc_id part
  constructor
  · intro h
    exact rowsOf_ok doc_id part self.values h
  · intro h
    exact rowsOf_err doc_id part self.values h

/-- Index used to witness the linking theorem: one record, registered under
base id `T1`, already carrying a note that the new one must overwrite. -/
def w5St : Annotations :=
  ⟨[("T1-0".data,
     ⟨"T1-0".data, 0, 4, "Sony".data, "Organization".data,
      some ⟨"#0".data, "AnnotatorNotes".data, "T1".data, "old".data⟩, none⟩)],
   [("T1".data, ["T1-0".data])]⟩

/-- The note parsed from the witness line. -/
def w5Note : AnnotationNote :=
  ⟨"#1".data, "AnnotatorNotes".data, "T1".data, "new".data⟩

/-- The normalization parsed from the witness normalization line. -/
def w5Norm : Normalization :=
  ⟨"W:9".data, "N1".data, "T1".data, some ("X".data)⟩

theorem link_noop_attach_overwrite_witness :
    (Annotations.add_ann w5St ("#1\tAnnotatorNotes T1\tnew".data) =
      .ok ⟨setNotes w5St.annotations (ddGet w5St.id_map ("T1".data)).1 w5Note,
           (ddGet w5St.id_map ("T1".data)).2⟩) ∧
    (dictLookup (setNotes w5St.annotations [("T1-0".data)] w5Note) ("T1-0".data) =
      (dictLookup w5St.annotations ("T1-0".data)).map
        (fun a => { a with note := some w5Note })) ∧
    (Annotations.add_ann w5St ("N1\tReference T1 W:9\tX".data) =
      .ok ⟨setNorms w5St.annotations (ddGet w5St.id_map ("T1".data)).1 w5Norm,
           (ddGet w5St.id_map ("T1".data)).2⟩) ∧
    (dictLookup (setNorms w5St.annotations [("T1-0".data)] w5Norm) ("T1-0".data) =
      (dictLookup w5St.annotations ("T1-0".data)).map
        (fun a => { a with norm := some w5Norm })) := by
  refine ⟨?_, ?_, ?_, ?_⟩
  · exact (link_noop_attach_overwrite.1 w5St ("#1\tAnnotatorNotes T1\tnew".data) w5Note
      ("1\tAnnotatorNotes T1\tnew".data) (by decide) (by decide)).1
  · have h := (link_noop_attach_overwrite.1 w5St ("#1\tAnnotatorNotes T1\tnew".data) w5Note
      ("1\tAnnotatorNotes T1\tnew".data) (by decide) (by decide)).2.2
      [("T1-0".data)] ("T1-0".data) (by decide)
    rwa [if_pos (by decide : ("T1-0".data) ∈ [("T1-0".data)])] at h
  · exact (link_noop_attach_overwrite.2 w5St ("N1\tReference T1 W:9\tX".data) w5Norm
      ("1\tReference T1 W:9\tX".data) (by decide) (by decide)).1
  · have h := (link_noop_attach_overwrite.2 w5St ("N1\tReference T1 W:9\tX".data) w5Norm
      ("1\tReference T1 W:9\tX".data) (by decide) (by decide)).2.2
      [("T1-0".data)] ("T1-0".data) (by decide)
    rwa [if_pos (by decide : ("T1-0".data) ∈ [("T1-0".data)])] at h

theorem link_unknown_target_frame_witness :
    (Annotations.add_ann ⟨[], []⟩ ("#1\tAnnotatorNotes T9\tx".data) =
      .ok ⟨[], [(("T9".data), [])]⟩) ∧
    (Annotations.add_ann ⟨[], []⟩ ("N1\tReference T9 W:9\tX".data) =
      .ok ⟨[], [(("T9".data), [])]⟩) := by
  constructor
  · exact link_unknown_target_frame.1 ⟨[], []⟩ ("#1\tAnnotatorNotes T9\tx".data)
      ⟨"#1".data, "AnnotatorNotes".data, "T9".data, "x".data⟩
      ("1\tAnnotatorNotes T9\tx".data) (by decide) (by decide) (by decide)
  · exact link_unknown_target_frame.2 ⟨[], []⟩ ("N1\tReference T9 W:9\tX".data)
      ⟨"W:9".data, "N1".data, "T9".data, some ("X".data)⟩
      ("1\tReference T9 W:9\tX".data) (by decide) (by decide) (by decide)

theorem loader_error_handling_amended_witness :
    (loadAnnFile ⟨[], []⟩ [("X9\tfoo".data)] = loadAnnFile ⟨[], []⟩ []) ∧
    (loadAnnFile ⟨[], []⟩ [("T1\tOrganization\t0\t4\tSony".data)] =
      loadAnnFile ⟨[("T1".data,
        ⟨"T1".data, 0, 4, "Sony".data, "Organization".data, none, none⟩)],
        [("T1".data, ["T1".data])]⟩ []) ∧
    (loadAnnFile ⟨[], []⟩ [("N1".data)] = .error .indexError) ∧
    (Annotations.add_ann ⟨[], []⟩ ("N1".data) = .error .indexError) := by
  refine ⟨?_, ?_, ?_, ?_⟩
  · exact loader_error_handling_amended.1 ⟨[], []⟩ ("X9\tfoo".data) []
      "Unsupported kind" (by decide)
  · exact loader_error_handling_amended.2.1 ⟨[], []⟩
      ⟨[("T1".data, ⟨"T1".data, 0, 4, "Sony".data, "Organization".data, none, none⟩)],
       [("T1".data, ["T1".data])]⟩
      ("T1\tOrganization\t0\t4\tSony".data) [] (by decide)
  · exact loader_error_handling_amended.2.2.1 ⟨[], []⟩ ("N1".data) [] (by decide)
  · exact loader_error_handling_amended.2.2.2 ⟨[], []⟩ ("N1".data) ("1".data)
      (by decide) (by decide)

theorem norm_parse_amended_witness :
    (Normalization.from_string ("N1\tReference\tT1\tWikipedia:1".data) =
      .ok ⟨"Wikipedia:1".data, "N1".data, "T1".data, none⟩) ∧
    (Normalization.from_string ("N1\tReference T1 W:1\tNm".data) =
      .ok ⟨"W:1".data, "N1".data, "T1".data, some ("Nm".data)⟩) ∧
    (Normalization.from_string ("N1\tRef\tX".data) = .error (.valueError "unpack")) ∧
    (Normalization.from_string ("N1".data) = .error .indexError) := by
  refine ⟨?_, ?_, ?_, ?_⟩
  · exact norm_parse_amended.1 ("N1\tReference\tT1\tWikipedia:1".data)
      ("N1".data) ("Reference".data) ("T1".data) ("Wikipedia:1".data) (by decide)
  · exact norm_parse_amended.2.1 ("N1\tReference T1 W:1\tNm".data)
      ("N1".data) ("Reference T1 W:1".data) [("Nm".data)]
      ("Reference".data) ("T1".data) ("W:1".data) (by decide) (by decide) (by decide)
  · refine norm_parse_amended.2.2.1 ("N1\tRef\tX".data)
      ("N1".data) ("Ref".data) [("X".data)] (by decide) (by decide) ?_
    intro x y z hh
    rw [show splitWs ("Ref".data) = [("Ref".data)] from by decide] at hh
    simp at hh
  · exact norm_parse_amended.2.2.2 ("N1".data) ("N1".data) (by decide)

theorem note_parse_amended_witness :
    (AnnotationNote.from_string ("#1\tAnnotatorNotes\tT1\ttxt".data) =
      .ok ⟨"#1".data, "AnnotatorNotes".data, "T1".data, "txt".data⟩) ∧
    (AnnotationNote.from_string ("#1\tAnnotatorNotes T1\ttxt".data) =
      .ok ⟨"#1".data, "AnnotatorNotes".data, "T1".data, "txt".data⟩) ∧
    (AnnotationNote.from_string ("#1\tAnnotatorNotes\ttxt".data) =
      .error (.valueError "unpack")) ∧
    (AnnotationNote.from_string ("#1".data) = .error (.valueError "unpack")) := by
  refine ⟨?_, ?_, ?_, ?_⟩
  · exact note_parse_amended.1 ("#1\tAnnotatorNotes\tT1\ttxt".data)
      ("#1".data) ("AnnotatorNotes".data) ("T1".data) ("txt".data) (by decide)
  · exact note_parse_amended.2.1 ("#1\tAnnotatorNotes T1\ttxt".data)
      ("#1".data) ("AnnotatorNotes T1".data) ("txt".data)
      ("AnnotatorNotes".data) ("T1".data) (by decide) (by decide)
  · refine note_parse_amended.2.2.1 ("#1\tAnnotatorNotes\ttxt".data)
      ("#1".data) ("AnnotatorNotes".data) ("txt".data) (by decide) ?_
    intro x y hh
    rw [show splitWs ("AnnotatorNotes".data) = [("AnnotatorNotes".data)] from by decide] at hh
    simp at hh
  · exact note_parse_amended.2.2.2 ("#1".data) (by decide) (by decide)

theorem export_rows_spec_witness :
    (Annotations.to_pandas c8St ("D".data) ("1".data) =
      .ok (c8St.values.map (rowSpec ("D".data) ("1".data)))) ∧
    (Annotations.to_pandas c2St ("D1".data) ("1".data) = .error .attributeError) := by
  constructor
  · exact (export_rows_spec c8St ("D".data) ("1".data)).1 (by decide)
  · exact (export_rows_spec c2St ("D1".data) ("1".data)).2 (by decide)

theorem filter_by_offset_spec_witness :
    Annotations.filter_by_offset (Annotations.filter_by_offset c2St 0 5) 0 5 =
      Annotations.filter_by_offset c2St 0 5 :=
  (filter_by_offset_spec c2St 0 5).2

/-- Records used to witness the exclusion-filter theorem. -/
def w8A1 : EntityAnn := ⟨"T1".data, 0, 1, "a".data, "X".data, none, none⟩

/-- A record whose normalization matches the exclusion set after marker
removal. -/
def w8A2 : EntityAnn :=
  ⟨"T2".data, 2, 3, "b".data, "X".data, none,
   some ⟨"emmet:q".data, "N1".data, "T2".data, none⟩⟩

/-- Two-record index for the exclusion-filter witness. -/
def w8St : Annotations := ⟨[("T1".data, w8A1), ("T2".data, w8A2)], []⟩

theorem donot_list_amended_witness :
    (w8A1 ∈ (Annotations.filter_by_donot_list w8St [("q".data)]).values) ∧
    (w8A2 ∈ (Annotations.filter_by_donot_list w8St [("q".data)]).values ↔
      w8A2 ∈ w8St.values ∧ stripEmmet ("emmet:q".data) ∉ [("q".data)]) := by
  constructor
  · exact (donot_list_amended w8St [("q".data)]).1 w8A1 (by decide) rfl
  · exact (donot_list_amended w8St [("q".data)]).2 w8A2
      ⟨"emmet:q".data, "N1".data, "T2".data, none⟩ rfl
